import Mathlib

/-!
# go-api: JSON response envelopes over an HTTP response writer

A shallow embedding of `api.go`.  The package builds a `Response` envelope
(`status` + `body`), marshals it with `encoding/json`, and writes headers,
status line and bytes to an `http.ResponseWriter`; error responses with a
"fatal" status code are additionally logged through `logrus`.

Modelling choices:

* Go `string` and `[]byte` are byte sequences (`Bytes`); a Go string need not
  be valid UTF-8.
* Go `int` is `Int`; the program performs no arithmetic on status codes.
* The effects of the program (calls on the response writer and on the global
  `logrus` logger) are recorded, in program order, in one trace of `Effect`s.
  Every operation is a function from the trace so far to a `Completion`
  (normal return, process exit, panic) and the extended trace.
* Pointers and interfaces that the caller hands in (`w`, `r`, `err`) are
  non-nil; `Response.Status` is a pointer field of the package's own struct
  and is modelled as an `Option`.
* Library functions (`strconv.Itoa`, `http.StatusText`, the string encoder of
  `encoding/json`, `utf8.DecodeRuneInString`) are modelled after the Go
  standard library (Go 1.22 and later for the JSON short escapes).
-/

namespace Api

/-! ## Bytes and library functions -/

/-- Go `string` / `[]byte`: a sequence of bytes. -/
abbrev Bytes := List UInt8

/-- The bytes (UTF-8) of a string literal of the Go source. -/
def lit (s : String) : Bytes :=
  (s.toList.map String.utf8EncodeChar).flatten

/-- Go `strconv.Itoa`: the decimal representation of an integer, with a
leading minus sign for negative numbers. -/
def Itoa (n : Int) : Bytes :=
  lit (toString n)

/-- The table behind `http.StatusText` (net/http, status.go). -/
def statusText : List (Int × String) :=
  [ (100, "Continue"), (101, "Switching Protocols"), (102, "Processing"),
    (103, "Early Hints"),
    (200, "OK"), (201, "Created"), (202, "Accepted"),
    (203, "Non-Authoritative Information"), (204, "No Content"),
    (205, "Reset Content"), (206, "Partial Content"), (207, "Multi-Status"),
    (208, "Already Reported"), (226, "IM Used"),
    (300, "Multiple Choices"), (301, "Moved Permanently"), (302, "Found"),
    (303, "See Other"), (304, "Not Modified"), (305, "Use Proxy"),
    (307, "Temporary Redirect"), (308, "Permanent Redirect"),
    (400, "Bad Request"), (401, "Unauthorized"), (402, "Payment Required"),
    (403, "Forbidden"), (404, "Not Found"), (405, "Method Not Allowed"),
    (406, "Not Acceptable"), (407, "Proxy Authentication Required"),
    (408, "Request Timeout"), (409, "Conflict"), (410, "Gone"),
    (411, "Length Required"), (412, "Precondition Failed"),
    (413, "Request Entity Too Large"), (414, "Request URI Too Long"),
    (415, "Unsupported Media Type"), (416, "Requested Range Not Satisfiable"),
    (417, "Expectation Failed"), (418, "I\x27m a teapot"),
    (421, "Misdirected Request"), (422, "Unprocessable Entity"),
    (423, "Locked"), (424, "Failed Dependency"), (425, "Too Early"),
    (426, "Upgrade Required"), (428, "Precondition Required"),
    (429, "Too Many Requests"), (431, "Request Header Fields Too Large"),
    (451, "Unavailable For Legal Reasons"),
    (500, "Internal Server Error"), (501, "Not Implemented"),
    (502, "Bad Gateway"), (503, "Service Unavailable"),
    (504, "Gateway Timeout"), (505, "HTTP Version Not Supported"),
    (506, "Variant Also Negotiates"), (507, "Insufficient Storage"),
    (508, "Loop Detected"), (510, "Not Extended"),
    (511, "Network Authentication Required") ]

/-- Go `http.StatusText`: the reason phrase of a status code, the empty
string when the code is unknown. -/
def StatusText (code : Int) : Bytes :=
  match statusText.lookup code with
  | some phrase => lit phrase
  | none => []

/-- Go `http.StatusOK`. -/
def StatusOK : Int := 200

/-- Go `utf8.RuneError`, the replacement character U+FFFD. -/
def RuneError : Nat := 0xFFFD

/-- The table `first` of package `unicode/utf8`: information about the first
byte of a UTF-8 sequence (`as` = 0xF0 ASCII, `xx` = 0xF1 invalid, otherwise
size in the low three bits and accept-range index in the high four). -/
def first (b : UInt8) : Nat :=
  if b < 0x80 then 0xF0
  else if b < 0xC2 then 0xF1
  else if b < 0xE0 then 0x02
  else if b = 0xE0 then 0x13
  else if b < 0xED then 0x03
  else if b = 0xED then 0x23
  else if b < 0xF0 then 0x03
  else if b = 0xF0 then 0x34
  else if b < 0xF4 then 0x04
  else if b = 0xF4 then 0x44
  else 0xF1

/-- The table `acceptRanges` of package `unicode/utf8`: the range (lo, hi)
allowed for the second byte of a sequence. -/
def acceptRanges (i : Nat) : Nat × Nat :=
  match i with
  | 0 => (0x80, 0xBF)
  | 1 => (0xA0, 0xBF)
  | 2 => (0x80, 0x9F)
  | 3 => (0x90, 0xBF)
  | 4 => (0x80, 0x8F)
  | _ => (0, 0)

/-- Go `utf8.DecodeRuneInString`: the first rune of `s` and its width in
bytes; `(RuneError, 0)` for the empty string and `(RuneError, 1)` for an
invalid encoding. -/
def DecodeRuneInString (s : Bytes) : Nat × Nat :=
  match s with
  | [] => (RuneError, 0)
  | s0 :: rest =>
    let x := first s0
    if x ≥ 0xF0 then
      (if x % 2 = 0 then (s0.toNat, 1) else (RuneError, 1))
    else
      let sz := x &&& 7
      let accept := acceptRanges (x >>> 4)
      if s.length < sz then (RuneError, 1)
      else
        let s1 := (rest.getD 0 0).toNat
        if s1 < accept.1 ∨ accept.2 < s1 then (RuneError, 1)
        else if sz ≤ 2 then (((s0.toNat &&& 0x1F) <<< 6) ||| (s1 &&& 0x3F), 2)
        else
          let s2 := (rest.getD 1 0).toNat
          if s2 < 0x80 ∨ 0xBF < s2 then (RuneError, 1)
          else if sz ≤ 3 then
            (((s0.toNat &&& 0x0F) <<< 12) ||| ((s1 &&& 0x3F) <<< 6) ||| (s2 &&& 0x3F), 3)
          else
            let s3 := (rest.getD 2 0).toNat
            if s3 < 0x80 ∨ 0xBF < s3 then (RuneError, 1)
            else
              (((s0.toNat &&& 0x07) <<< 18) ||| ((s1 &&& 0x3F) <<< 12)
                ||| ((s2 &&& 0x3F) <<< 6) ||| (s3 &&& 0x3F), 4)

/-- The constant `hex` of package `encoding/json`. -/
def hex (n : Nat) : UInt8 :=
  (lit "0123456789abcdef").getD n 0

/-- The table `htmlSafeSet` of package `encoding/json`: the ASCII bytes that
are copied into a JSON string unescaped when HTML escaping is on: 0x20 to
0x7F without the double quote, the ampersand, the angle brackets and the
backslash. -/
def htmlSafeSet (b : UInt8) : Bool :=
  0x20 ≤ b && b < 0x80 && b != 0x22 && b != 0x26 && b != 0x3C && b != 0x3E && b != 0x5C

/-- One iteration of the loop of `appendString` (encoding/json, with
`escapeHTML` on, as `json.Marshal` sets it): the bytes appended for the rune
that starts `src`, and the number of bytes of `src` it consumes. -/
def appendRune (src : Bytes) : Bytes × Nat :=
  match src with
  | [] => ([], 0)
  | b :: _ =>
    if b < 0x80 then
      if htmlSafeSet b then ([b], 1)
      else if b = 0x5C ∨ b = 0x22 then ([0x5C, b], 1)
      else if b = 0x08 then (lit "\\b", 1)
      else if b = 0x0C then (lit "\\f", 1)
      else if b = 0x0A then (lit "\\n", 1)
      else if b = 0x0D then (lit "\\r", 1)
      else if b = 0x09 then (lit "\\t", 1)
      else (lit "\\u00" ++ [hex (b.toNat >>> 4), hex (b.toNat &&& 0xF)], 1)
    else
      let (c, size) := DecodeRuneInString (src.take 4)
      if c = RuneError ∧ size = 1 then (lit "\\ufffd", 1)
      else if c = 0x2028 ∨ c = 0x2029 then (lit "\\u202" ++ [hex (c &&& 0xF)], size)
      else (src.take size, size)

/-- The loop of `appendString`: `skip` is the number of bytes of `src` that
belong to the rune handled last (the distance to index `i` of the source). -/
def appendStringLoop : Nat → Bytes → Bytes
  | _, [] => []
  | skip + 1, _ :: rest => appendStringLoop skip rest
  | 0, b :: rest =>
    (appendRune (b :: rest)).1 ++ appendStringLoop ((appendRune (b :: rest)).2 - 1) rest

/-- The string encoder `appendString` of `encoding/json`: `src` as a JSON
string literal, between double quotes. -/
def appendString (src : Bytes) : Bytes :=
  0x22 :: appendStringLoop 0 src ++ [0x22]

/-! ## Data model -/

/-- A non-nil `http.ResponseWriter`, the sink of one HTTP response. -/
structure ResponseWriter where
  id : Nat
  deriving DecidableEq

/-- A non-nil `*http.Request`, with the two fields the package reads; `URL`
is a `*url.URL` (which may be nil), represented by its text. -/
structure Request where
  Method : Bytes
  URL : Option Bytes
  deriving DecidableEq

/-- A non-nil value of Go interface type `error`, represented by the string
its `Error` method returns. -/
structure GoError where
  Error : Bytes
  deriving DecidableEq

/-- A value of Go type `interface{}` as the package uses it: it is stored in
`Response.Body` and handed to `encoding/json`, nothing else.  A non-nil value
is represented by what `json.Marshal` does with it. -/
inductive GoValue where
  /-- The nil interface value. -/
  | nil
  /-- A non-nil value that `json.Marshal` encodes to the bytes `json`. -/
  | encodable (json : Bytes)
  /-- A non-nil value on which `json.Marshal` returns an error (a channel, a
  function, a NaN float, a failing `MarshalJSON` method). -/
  | unsupported (reason : String)
  deriving DecidableEq

/-- Go struct `ResponseStatus`, the JSON-format representation of the HTTP
status. -/
structure ResponseStatus where
  Code : Int
  Message : Bytes
  Error : Bytes
  deriving DecidableEq

/-- Go struct `Response`; `Status` is a pointer, `Body` an `interface{}`. -/
structure Response where
  rw : ResponseWriter
  Status : Option ResponseStatus
  Body : GoValue
  deriving DecidableEq

/-! ## Effects -/

/-- A call on an `http.ResponseWriter`. -/
inductive SinkCall where
  /-- The call `Header().Set(key, value)`. -/
  | headerSet (key value : Bytes)
  /-- The call `WriteHeader(code)`. -/
  | writeHeader (code : Int)
  /-- The call `Write(p)`. -/
  | write (p : Bytes)
  deriving DecidableEq

/-- A value stored in a `logrus.Fields` map. -/
inductive FieldValue where
  | str (s : Bytes)
  | url (u : Option Bytes)
  | int (n : Int)
  | err (e : GoError)
  deriving DecidableEq

/-- An observable effect of the package. -/
inductive Effect where
  /-- A call on the response writer `w`. -/
  | sink (w : ResponseWriter) (call : SinkCall)
  /-- The call `logrus.WithFields(fields).Warn(msg)`: one record at warning
  level. -/
  | warn (fields : List (String × FieldValue)) (msg : String)
  /-- The call `logrus.Fatal(msg)`: one record at fatal level, after which
  logrus ends the process with `os.Exit(1)`. -/
  | fatal (msg : String)
  deriving DecidableEq

/-- How a call ends: it returns to its caller, the process exits, or the
goroutine panics (nil dereference). -/
inductive Completion where
  | returned
  | exited (status : Int)
  | panicked
  deriving DecidableEq

/-! ## encoding/json on the package's structs -/

/-- The encoding of an `interface{}` by `encoding/json`: `null` for nil. -/
def marshalValue : GoValue → Except String Bytes
  | .nil => .ok (lit "null")
  | .encodable json => .ok json
  | .unsupported reason => .error reason

/-- The encoding of a `*ResponseStatus` under its struct tags `code`,
`message`, `error`, in declaration order; `null` for a nil pointer. -/
def marshalStatus : Option ResponseStatus → Bytes
  | none => lit "null"
  | some st =>
    lit "\x7b\"code\":" ++ Itoa st.Code ++ lit ",\"message\":" ++ appendString st.Message
      ++ lit ",\"error\":" ++ appendString st.Error ++ lit "\x7d"

/-- Go `json.Marshal(r)` for `r : *Response`: the unexported field `rw` is
skipped, `Status` and `Body` are written under their tags `status` and `body`
in declaration order; neither tag has `omitempty`. -/
def Marshal (r : Response) : Except String Bytes :=
  match marshalValue r.Body with
  | .error e => .error e
  | .ok body =>
    .ok (lit "\x7b\"status\":" ++ marshalStatus r.Status ++ lit ",\"body\":" ++ body ++ lit "\x7d")

/-! ## The package -/

/-- Go `(*Response).WriteJSON`. -/
def WriteJSON (r : Response) (world : List Effect) : Completion × List Effect :=
  match Marshal r with
  | .error _ =>
    (.exited 1, world ++ [.fatal "Could not marshal JSON in the API writer"])
  | .ok json =>
    let world := world ++ [.sink r.rw (.headerSet (lit "Content-Type")
      (lit "application/json; charset=UTF-8"))]
    let world := world ++ [.sink r.rw (.headerSet (lit "Content-Length") (Itoa json.length))]
    match r.Status with
    | none => (.panicked, world)
    | some st =>
      let world := world ++ [.sink r.rw (.writeHeader st.Code)]
      let world := world ++ [.sink r.rw (.write json)]
      (.returned, world)

/-- Go `statusCodeFatal`. -/
def statusCodeFatal (code : Int) : Bool :=
  let fatalCodes : List Int := [500, 501, 502, 503, 504, 505, 511]
  let rec loop : List Int → Bool
    | [] => false
    | c :: cs => if c = code then true else loop cs
  loop fatalCodes

/-- The `Response` that `WriteErrorResponse` has built when it calls
`WriteJSON` (the value of `res` at that call). -/
def errorResponse (w : ResponseWriter) (code : Int) (err : GoError) : Response :=
  let res : Response := { rw := w, Status := none, Body := .nil }
  let status : ResponseStatus :=
    { Code := code, Message := StatusText code, Error := err.Error }
  { res with Status := some status }

/-- Go `WriteErrorResponse`. -/
def WriteErrorResponse (w : ResponseWriter) (r : Request) (code : Int) (err : GoError)
    (world : List Effect) : Completion × List Effect :=
  let res := errorResponse w code err
  let world :=
    if statusCodeFatal code = true then
      world ++ [.warn [("method", .str r.Method), ("url", .url r.URL), ("code", .int code),
        ("error", .err err)] "API Handler returned an error!"]
    else world
  WriteJSON res world

/-- The `Response` that `WriteResponse` has built when it calls `WriteJSON`;
the field `Error` of the status keeps its zero value, the empty string. -/
def successResponse (w : ResponseWriter) (data : GoValue) : Response :=
  let res : Response := { rw := w, Status := none, Body := .nil }
  let status : ResponseStatus :=
    { Code := StatusOK, Message := StatusText StatusOK, Error := [] }
  let res := { res with Status := some status }
  { res with Body := data }

/-- Go `WriteResponse`. -/
def WriteResponse (w : ResponseWriter) (data : GoValue) (world : List Effect) :
    Completion × List Effect :=
  WriteJSON (successResponse w data) world

/-! ## Observations on a trace -/

/-- The calls made on the sink `w`, in order. -/
def sinkCalls (w : ResponseWriter) (trace : List Effect) : List SinkCall :=
  trace.filterMap fun e =>
    match e with
    | .sink w1 call => if w1 = w then some call else none
    | _ => none

/-- Whether an effect is a log record at warning level. -/
def Effect.isWarn : Effect → Bool
  | .warn _ _ => true
  | _ => false

/-- Whether an effect is a log record at fatal level. -/
def Effect.isFatal : Effect → Bool
  | .fatal _ => true
  | _ => false

/-- Whether an effect is a call on a sink. -/
def Effect.isSink : Effect → Bool
  | .sink _ _ => true
  | _ => false

/-- The codes passed to `WriteHeader` among a list of sink calls. -/
def statusCodes (calls : List SinkCall) : List Int :=
  calls.filterMap fun c =>
    match c with
    | .writeHeader code => some code
    | _ => none

/-- The bytes passed to `Write` among a list of sink calls, concatenated. -/
def written (calls : List SinkCall) : Bytes :=
  (calls.filterMap fun c =>
    match c with
    | .write p => some p
    | _ => none).flatten

/-- The four calls `WriteJSON` makes on a sink for the status code `code`
and the serialized envelope `json`. -/
def responseCalls (code : Int) (json : Bytes) : List SinkCall :=
  [ .headerSet (lit "Content-Type") (lit "application/json; charset=UTF-8"),
    .headerSet (lit "Content-Length") (Itoa json.length),
    .writeHeader code,
    .write json ]

/-- The value of the header `key` after a list of sink calls: `Set` replaces
what an earlier `Set` of the same key stored. -/
def headerValue (key : Bytes) (calls : List SinkCall) : Option Bytes :=
  calls.foldl (fun acc c =>
    match c with
    | .headerSet k v => if k = key then some v else acc
    | _ => acc) none

/-- The number that a string of ASCII decimal digits denotes, read from the
left with the value `acc` of the digits before it; `none` when a byte is not
a digit. -/
def digitsValue : Nat → Bytes → Option Nat
  | acc, [] => some acc
  | acc, b :: rest =>
    if 0x30 ≤ b ∧ b ≤ 0x39 then digitsValue (10 * acc + (b.toNat - 0x30)) rest else none

/-- The number that a header value denotes when it is a non-empty string of
decimal digits, as the reader of a `Content-Length` header takes it. -/
def decimalValue (s : Bytes) : Option Nat :=
  if s = [] then none else digitsValue 0 s

/-! ## Lemmas on the model -/

theorem digitsValue_digit (d : Nat) (hd : d < 10) (acc : Nat) (rest : Bytes) :
    digitsValue acc (String.utf8EncodeChar (Nat.digitChar d) ++ rest)
      = digitsValue (10 * acc + d) rest := by
  interval_cases d <;> rfl

theorem digitChar_bytes_ne_nil (d : Nat) (hd : d < 10) :
    String.utf8EncodeChar (Nat.digitChar d) ≠ [] := by
  interval_cases d <;> decide

theorem digitsValue_append (pre rest : Bytes) (acc n : Nat) (h : digitsValue acc pre = some n) :
    digitsValue acc (pre ++ rest) = digitsValue n rest := by
  induction pre generalizing acc with
  | nil => simp [digitsValue] at h; simp [h]
  | cons b bs ih =>
    simp only [digitsValue, List.cons_append] at h ⊢
    split_ifs at h ⊢ with hb
    exact ih _ h

/-- The digits that the printing loop puts in front of its accumulator
denote the number printed. -/
theorem toDigitsCore_bytes (fuel : Nat) : ∀ (n : Nat) (ds : List Char), n < fuel →
    ∃ pre : Bytes, pre ≠ [] ∧ digitsValue 0 pre = some n ∧
      ((Nat.toDigitsCore 10 fuel n ds).map String.utf8EncodeChar).flatten
        = pre ++ (ds.map String.utf8EncodeChar).flatten := by
  induction fuel with
  | zero => intro n ds h; omega
  | succ fuel ih =>
    intro n ds h
    have hd : n % 10 < 10 := Nat.mod_lt _ (by decide)
    simp only [Nat.toDigitsCore]
    split_ifs with h0
    · refine ⟨String.utf8EncodeChar (Nat.digitChar (n % 10)), digitChar_bytes_ne_nil _ hd, ?_,
        by simp⟩
      have hstep := digitsValue_digit (n % 10) hd 0 []
      rw [List.append_nil] at hstep
      rw [hstep]
      simp [digitsValue]
      omega
    · obtain ⟨pre, hne, hval, hbytes⟩ := ih (n / 10) (Nat.digitChar (n % 10) :: ds) (by omega)
      refine ⟨pre ++ String.utf8EncodeChar (Nat.digitChar (n % 10)), by simp [hne], ?_, ?_⟩
      · rw [digitsValue_append _ _ _ _ hval]
        have hstep := digitsValue_digit (n % 10) hd (n / 10) []
        rw [List.append_nil] at hstep
        rw [hstep]
        simp [digitsValue]
        omega
      · rw [hbytes]; simp

/-- Reading back what `Itoa` prints for a natural number gives the number. -/
theorem decimalValue_Itoa (n : Nat) : decimalValue (Itoa (n : Int)) = some n := by
  obtain ⟨pre, hne, hval, hbytes⟩ := toDigitsCore_bytes (n + 1) n [] (by omega)
  have hpre : Itoa (n : Int) = pre := by
    simpa [Itoa, lit, Nat.repr, Nat.toDigits] using hbytes
  rw [hpre, decimalValue, if_neg hne, hval]

theorem sinkCalls_append (w : ResponseWriter) (a b : List Effect) :
    sinkCalls w (a ++ b) = sinkCalls w a ++ sinkCalls w b := by
  simp [sinkCalls, List.filterMap_append]

theorem sinkCalls_map_sink (w : ResponseWriter) (calls : List SinkCall) :
    sinkCalls w (calls.map (Effect.sink w)) = calls := by
  induction calls with
  | nil => rfl
  | cons c cs ih =>
    simp only [sinkCalls, List.map_cons, List.filterMap_cons] at ih ⊢
    simp [ih]

/-- What `WriteJSON` does when the envelope serializes and has a status. -/
theorem WriteJSON_ok (r : Response) (st : ResponseStatus) (json : Bytes) (world : List Effect)
    (hm : Marshal r = .ok json) (hs : r.Status = some st) :
    WriteJSON r world = (.returned, world ++ (responseCalls st.Code json).map (Effect.sink r.rw)) := by
  simp [WriteJSON, hm, hs, responseCalls]

/-- What `WriteJSON` does when the envelope does not serialize. -/
theorem WriteJSON_error (r : Response) (e : String) (world : List Effect)
    (hm : Marshal r = .error e) :
    WriteJSON r world
      = (.exited 1, world ++ [.fatal "Could not marshal JSON in the API writer"]) := by
  simp [WriteJSON, hm]

/-- The serialized status of a success response. -/
theorem marshalStatus_ok :
    lit "\x7b\"status\":" ++ marshalStatus (some ⟨StatusOK, StatusText StatusOK, []⟩)
        ++ lit ",\"body\":"
      = lit "\x7b\"status\":\x7b\"code\":200,\"message\":\"OK\",\"error\":\"\"\x7d,\"body\":" := by
  decide

/-- The serialization of the envelope of a success response. -/
theorem Marshal_successResponse (w : ResponseWriter) (data : GoValue) (J : Bytes)
    (h : marshalValue data = .ok J) :
    Marshal (successResponse w data)
      = .ok (lit "\x7b\"status\":\x7b\"code\":200,\"message\":\"OK\",\"error\":\"\"\x7d,\"body\":"
          ++ J ++ lit "\x7d") := by
  simp only [Marshal, successResponse, h]
  rw [marshalStatus_ok]

/-- The serialization of the envelope of an error response: it always
succeeds, and the member `body` is present with the value `null`. -/
theorem Marshal_errorResponse (w : ResponseWriter) (code : Int) (err : GoError) :
    Marshal (errorResponse w code err)
      = .ok (lit "\x7b\"status\":\x7b\"code\":" ++ Itoa code ++ lit ",\"message\":"
          ++ appendString (StatusText code) ++ lit ",\"error\":" ++ appendString err.Error
          ++ lit "\x7d,\"body\":null\x7d") := by
  simp only [Marshal, errorResponse, marshalValue, marshalStatus]
  have h3 : ∀ t : Bytes, lit "\x7b\"status\":" ++ (lit "\x7b\"code\":" ++ t)
      = lit "\x7b\"status\":\x7b\"code\":" ++ t := by
    intro t; rfl
  simp only [List.append_assoc]
  rw [h3]
  congr 6

/-- What `WriteErrorResponse` does: the log record for a fatal code, then
the four sink calls. -/
theorem WriteErrorResponse_run (w : ResponseWriter) (r : Request) (code : Int) (err : GoError)
    (world : List Effect) :
    ∃ json, Marshal (errorResponse w code err) = .ok json ∧
      WriteErrorResponse w r code err world
        = (.returned, world
            ++ (if statusCodeFatal code = true then
                  [.warn [("method", .str r.Method), ("url", .url r.URL), ("code", .int code),
                    ("error", .err err)] "API Handler returned an error!"]
                else [])
            ++ (responseCalls code json).map (Effect.sink w)) := by
  refine ⟨_, Marshal_errorResponse w code err, ?_⟩
  unfold WriteErrorResponse
  simp only []
  rw [WriteJSON_ok _ ⟨code, StatusText code, err.Error⟩ _ _ (Marshal_errorResponse w code err) rfl]
  by_cases hf : statusCodeFatal code = true <;> simp [hf, errorResponse]

/-- What `WriteResponse` does when the body serializes. -/
theorem WriteResponse_run (w : ResponseWriter) (data : GoValue) (J : Bytes)
    (world : List Effect) (h : marshalValue data = .ok J) :
    WriteResponse w data world
      = (.returned, world ++ (responseCalls 200
          (lit "\x7b\"status\":\x7b\"code\":200,\"message\":\"OK\",\"error\":\"\"\x7d,\"body\":"
            ++ J ++ lit "\x7d")).map (Effect.sink w)) := by
  unfold WriteResponse
  rw [WriteJSON_ok _ ⟨StatusOK, StatusText StatusOK, []⟩ _ _ (Marshal_successResponse w data J h) rfl]
  rfl

/-- What `WriteResponse` does when the body does not serialize. -/
theorem WriteResponse_fail (w : ResponseWriter) (data : GoValue) (e : String)
    (world : List Effect) (h : marshalValue data = .error e) :
    WriteResponse w data world
      = (.exited 1, world ++ [.fatal "Could not marshal JSON in the API writer"]) := by
  unfold WriteResponse
  exact WriteJSON_error _ e _ (by simp [Marshal, successResponse, h])

/-- The sink calls of a response, observed on the sink they were made on. -/
theorem sinkCalls_response (w : ResponseWriter) (pre : List Effect) (calls : List SinkCall)
    (h : sinkCalls w pre = []) :
    sinkCalls w (pre ++ calls.map (Effect.sink w)) = calls := by
  rw [sinkCalls_append, sinkCalls_map_sink, h, List.nil_append]

/-- The encoder copies a string of HTML-safe ASCII bytes verbatim. -/
theorem appendStringLoop_plain (s : Bytes) (h : s.all htmlSafeSet = true) :
    appendStringLoop 0 s = s := by
  induction s with
  | nil => rfl
  | cons b rest ih =>
    simp only [List.all_cons, Bool.and_eq_true] at h
    have hb : b < 0x80 := by
      have := h.1
      simp only [htmlSafeSet, Bool.and_eq_true, decide_eq_true_eq] at this
      exact this.1.1.1.1.1.2
    simp [appendStringLoop, appendRune, hb, h.1, ih h.2]

/-- A string of HTML-safe ASCII bytes is encoded as itself between double
quotes. -/
theorem appendString_plain (s : Bytes) (h : s.all htmlSafeSet = true) :
    appendString s = 0x22 :: s ++ [0x22] := by
  simp [appendString, appendStringLoop_plain s h]

theorem appendString_plain_db_down :
    appendString (lit "db down") = 0x22 :: lit "db down" ++ [0x22] :=
  appendString_plain (lit "db down") (by decide)

/-! ## The claims -/

/-- C1: `statusCodeFatal code` is true exactly when `code` is one of 500, 501,
502, 503, 504, 505, 511 and false for every other integer; in particular it
is false for 506, 507, 508, 509 and 510. -/
theorem statusCodeFatal_exact (code : Int) :
    (statusCodeFatal code = true ↔
      code = 500 ∨ code = 501 ∨ code = 502 ∨ code = 503 ∨ code = 504 ∨ code = 505
        ∨ code = 511)
    ∧ (statusCodeFatal code = false ↔
      code ≠ 500 ∧ code ≠ 501 ∧ code ≠ 502 ∧ code ≠ 503 ∧ code ≠ 504 ∧ code ≠ 505
        ∧ code ≠ 511)
    ∧ statusCodeFatal 506 = false ∧ statusCodeFatal 507 = false
    ∧ statusCodeFatal 508 = false ∧ statusCodeFatal 509 = false
    ∧ statusCodeFatal 510 = false := by
  refine ⟨?_, ?_, by decide, by decide, by decide, by decide, by decide⟩
  · simp only [statusCodeFatal, statusCodeFatal.loop]
    constructor
    · intro h
      split_ifs at h <;> simp_all
    · intro h
      rcases h with h | h | h | h | h | h | h <;> subst h <;> decide
  · simp only [statusCodeFatal, statusCodeFatal.loop]
    constructor
    · intro h
      split_ifs at h
      simp_all
      omega
    · intro h
      obtain ⟨h0, h1, h2, h3, h4, h5, h6⟩ := h
      simp [Ne.symm h0, Ne.symm h1, Ne.symm h2, Ne.symm h3, Ne.symm h4, Ne.symm h5, Ne.symm h6]

/-- C2: the envelope that `WriteErrorResponse` hands to `WriteJSON` has the
caller's code, the reason phrase `StatusText code` (empty for an unknown
code), the text of the error verbatim and a nil body; nothing has been done
on the sink before the handoff, and the one status code written to the sink
is the caller's code. -/
theorem WriteErrorResponse_envelope (w : ResponseWriter) (r : Request) (code : Int)
    (err : GoError) (world : List Effect) :
    errorResponse w code err
        = { rw := w,
            Status := some { Code := code, Message := StatusText code, Error := err.Error },
            Body := GoValue.nil }
    ∧ (∃ log, sinkCalls w log = []
        ∧ WriteErrorResponse w r code err world
            = WriteJSON (errorResponse w code err) (world ++ log))
    ∧ (∃ out, (WriteErrorResponse w r code err world).2 = world ++ out
        ∧ statusCodes (sinkCalls w out) = [code])
    ∧ StatusText 503 = lit "Service Unavailable" ∧ StatusText 404 = lit "Not Found"
    ∧ StatusText 299 = [] ∧ StatusText 0 = [] ∧ StatusText (-1) = [] := by
  refine ⟨rfl, ?_, ?_, by decide, by decide, by decide, by decide, by decide⟩
  · by_cases hf : statusCodeFatal code = true
    · exact ⟨[.warn [("method", .str r.Method), ("url", .url r.URL), ("code", .int code),
        ("error", .err err)] "API Handler returned an error!"], rfl,
        by simp [WriteErrorResponse, hf]⟩
    · exact ⟨[], rfl, by simp [WriteErrorResponse, hf]⟩
  · obtain ⟨json, _, hrun⟩ := WriteErrorResponse_run w r code err world
    refine ⟨_, by rw [hrun, List.append_assoc], ?_⟩
    rw [sinkCalls_append, sinkCalls_map_sink]
    by_cases hf : statusCodeFatal code = true <;>
      simp [hf, sinkCalls, statusCodes, responseCalls]

/-- C3: when the body value serializes to `J`, `WriteResponse` returns after
setting the two headers, writing status code 200 and writing exactly the
bytes `{"status":{"code":200,"message":"OK","error":""},"body":J}`. -/
theorem WriteResponse_bytes (w : ResponseWriter) (data : GoValue) (J : Bytes)
    (world : List Effect) (h : marshalValue data = .ok J) :
    WriteResponse w data world
      = (.returned, world ++
          [ .sink w (.headerSet (lit "Content-Type") (lit "application/json; charset=UTF-8")),
            .sink w (.headerSet (lit "Content-Length")
              (Itoa (lit
                "\x7b\"status\":\x7b\"code\":200,\"message\":\"OK\",\"error\":\"\"\x7d,\"body\":"
                  ++ J ++ lit "\x7d").length)),
            .sink w (.writeHeader 200),
            .sink w (.write (lit
              "\x7b\"status\":\x7b\"code\":200,\"message\":\"OK\",\"error\":\"\"\x7d,\"body\":"
                ++ J ++ lit "\x7d")) ]) := by
  rw [WriteResponse_run w data J world h]
  rfl

set_option maxRecDepth 100000 in
/-- C3 at the body `{"id":1}`: status code 200 and the bytes
`{"status":{"code":200,"message":"OK","error":""},"body":{"id":1}}`, 65 of
them. -/
theorem WriteResponse_bytes_witness :
    marshalValue (.encodable (lit "\x7b\"id\":1\x7d")) = .ok (lit "\x7b\"id\":1\x7d")
    ∧ WriteResponse ⟨0⟩ (.encodable (lit "\x7b\"id\":1\x7d")) []
      = (.returned,
          [ .sink ⟨0⟩ (.headerSet (lit "Content-Type")
              (lit "application/json; charset=UTF-8")),
            .sink ⟨0⟩ (.headerSet (lit "Content-Length") (lit "65")),
            .sink ⟨0⟩ (.writeHeader 200),
            .sink ⟨0⟩ (.write (lit
              "\x7b\"status\":\x7b\"code\":200,\"message\":\"OK\",\"error\":\"\"\x7d,\"body\":\x7b\"id\":1\x7d\x7d")) ]) :=
  ⟨rfl, (WriteResponse_bytes ⟨0⟩ (.encodable (lit "\x7b\"id\":1\x7d")) (lit "\x7b\"id\":1\x7d") []
    rfl).trans rfl⟩

set_option maxRecDepth 100000 in
/-- C4 as stated fails: for code 503 and the error "db down" the bytes
written to the sink are not the object with the status member only; the
member `body` is there, with the value `null`. -/
theorem WriteErrorResponse_body_not_omitted :
    written (sinkCalls ⟨0⟩
        (WriteErrorResponse ⟨0⟩ ⟨lit "GET", none⟩ 503 ⟨lit "db down"⟩ []).2)
      ≠ lit "\x7b\"status\":\x7b\"code\":503,\"message\":\"Service Unavailable\",\"error\":\"db down\"\x7d\x7d"
    ∧ written (sinkCalls ⟨0⟩
        (WriteErrorResponse ⟨0⟩ ⟨lit "GET", none⟩ 503 ⟨lit "db down"⟩ []).2)
      = lit "\x7b\"status\":\x7b\"code\":503,\"message\":\"Service Unavailable\",\"error\":\"db down\"\x7d,\"body\":null\x7d" := by
  decide

set_option maxRecDepth 100000 in
/-- C4, amended: for every code and error, `WriteErrorResponse` makes one
`Write` call on the sink, with the JSON object that has the status member
(code in decimal, reason phrase and error text as JSON strings) followed by
the member `body` with the value `null`; for code 503 and the error
"db down" these bytes are
`{"status":{"code":503,"message":"Service Unavailable","error":"db down"},"body":null}`. -/
theorem WriteErrorResponse_bytes (w : ResponseWriter) (r : Request) (code : Int)
    (err : GoError) (world : List Effect) :
    (∃ out, (WriteErrorResponse w r code err world).2 = world ++ out
      ∧ (sinkCalls w out).filter (fun c => c matches .write _)
        = [.write (lit "\x7b\"status\":\x7b\"code\":" ++ Itoa code ++ lit ",\"message\":"
            ++ appendString (StatusText code) ++ lit ",\"error\":" ++ appendString err.Error
            ++ lit "\x7d,\"body\":null\x7d")]
      ∧ written (sinkCalls w out)
        = lit "\x7b\"status\":\x7b\"code\":" ++ Itoa code ++ lit ",\"message\":"
            ++ appendString (StatusText code) ++ lit ",\"error\":" ++ appendString err.Error
            ++ lit "\x7d,\"body\":null\x7d")
    ∧ lit "\x7b\"status\":\x7b\"code\":" ++ Itoa 503 ++ lit ",\"message\":"
          ++ appendString (StatusText 503) ++ lit ",\"error\":"
          ++ appendString (lit "db down") ++ lit "\x7d,\"body\":null\x7d"
        = lit "\x7b\"status\":\x7b\"code\":503,\"message\":\"Service Unavailable\",\"error\":\"db down\"\x7d,\"body\":null\x7d" := by
  refine ⟨?_, by decide⟩
  obtain ⟨json, hjson, hrun⟩ := WriteErrorResponse_run w r code err world
  rw [Marshal_errorResponse] at hjson
  cases hjson
  refine ⟨_, by rw [hrun, List.append_assoc], ?_, ?_⟩
  · rw [sinkCalls_append, sinkCalls_map_sink]
    by_cases hf : statusCodeFatal code = true <;>
      simp [hf, sinkCalls, responseCalls]
  · rw [sinkCalls_append, sinkCalls_map_sink]
    by_cases hf : statusCodeFatal code = true <;>
      simp [hf, sinkCalls, responseCalls, written]

/-- C5: when the envelope serializes, the `Content-Length` header that
`WriteResponse` and `WriteErrorResponse` leave on the sink is the decimal
representation of the number of bytes of the serialized envelope (`Itoa` of
the length, which reads back as that number), these bytes are exactly what
is written to the sink, and the `Content-Type` header is
`application/json; charset=UTF-8`. -/
theorem content_headers_exact (w : ResponseWriter) (r : Request) (code : Int) (err : GoError)
    (data : GoValue) (J : Bytes) (world : List Effect) (h : marshalValue data = .ok J) :
    (∃ out json, (WriteResponse w data world).2 = world ++ out
      ∧ Marshal (successResponse w data) = .ok json
      ∧ written (sinkCalls w out) = json
      ∧ headerValue (lit "Content-Length") (sinkCalls w out) = some (Itoa json.length)
      ∧ headerValue (lit "Content-Length") (sinkCalls w out)
          = some (Itoa (written (sinkCalls w out)).length)
      ∧ (headerValue (lit "Content-Length") (sinkCalls w out)).bind decimalValue
          = some (written (sinkCalls w out)).length
      ∧ headerValue (lit "Content-Type") (sinkCalls w out)
          = some (lit "application/json; charset=UTF-8"))
    ∧ (∃ out json, (WriteErrorResponse w r code err world).2 = world ++ out
      ∧ Marshal (errorResponse w code err) = .ok json
      ∧ written (sinkCalls w out) = json
      ∧ headerValue (lit "Content-Length") (sinkCalls w out) = some (Itoa json.length)
      ∧ headerValue (lit "Content-Length") (sinkCalls w out)
          = some (Itoa (written (sinkCalls w out)).length)
      ∧ (headerValue (lit "Content-Length") (sinkCalls w out)).bind decimalValue
          = some (written (sinkCalls w out)).length
      ∧ headerValue (lit "Content-Type") (sinkCalls w out)
          = some (lit "application/json; charset=UTF-8")) := by
  have key : ∀ (c : Int) (json : Bytes),
      written (responseCalls c json) = json
      ∧ headerValue (lit "Content-Length") (responseCalls c json) = some (Itoa json.length)
      ∧ headerValue (lit "Content-Type") (responseCalls c json)
          = some (lit "application/json; charset=UTF-8") := by
    intro c json
    have hne : lit "Content-Type" ≠ lit "Content-Length" := by decide
    refine ⟨by simp [written, responseCalls], ?_, ?_⟩
    · simp [headerValue, responseCalls, hne]
    · simp [headerValue, responseCalls, hne.symm]
  constructor
  · refine ⟨_, _, by rw [WriteResponse_run w data J world h], Marshal_successResponse w data J h,
      ?_⟩
    rw [sinkCalls_map_sink]
    obtain ⟨h1, h2, h3⟩ := key 200 (lit
      "\x7b\"status\":\x7b\"code\":200,\"message\":\"OK\",\"error\":\"\"\x7d,\"body\":"
        ++ J ++ lit "\x7d")
    exact ⟨h1, h2, by rw [h1]; exact h2, by rw [h2, h1]; exact decimalValue_Itoa _, h3⟩
  · obtain ⟨json, hjson, hrun⟩ := WriteErrorResponse_run w r code err world
    refine ⟨_, json, by rw [hrun, List.append_assoc], hjson, ?_⟩
    rw [sinkCalls_response w _ _ (by by_cases hf : statusCodeFatal code = true <;>
      simp [hf, sinkCalls])]
    obtain ⟨h1, h2, h3⟩ := key code json
    exact ⟨h1, h2, by rw [h1]; exact h2, by rw [h2, h1]; exact decimalValue_Itoa _, h3⟩

set_option maxRecDepth 100000 in
/-- C5 at the body `{"id":1}` and at code 503 with the error "db down": the
`Content-Length` values are 65 and 85, the lengths of the bytes written. -/
theorem content_headers_exact_witness :
    marshalValue (.encodable (lit "\x7b\"id\":1\x7d")) = .ok (lit "\x7b\"id\":1\x7d")
    ∧ headerValue (lit "Content-Length")
        (sinkCalls ⟨0⟩ (WriteResponse ⟨0⟩ (.encodable (lit "\x7b\"id\":1\x7d")) []).2)
        = some (lit "65")
    ∧ (written
        (sinkCalls ⟨0⟩ (WriteResponse ⟨0⟩ (.encodable (lit "\x7b\"id\":1\x7d")) []).2)).length
        = 65
    ∧ headerValue (lit "Content-Length")
        (sinkCalls ⟨0⟩ (WriteErrorResponse ⟨0⟩ ⟨lit "GET", none⟩ 503 ⟨lit "db down"⟩ []).2)
        = some (lit "85")
    ∧ (written
        (sinkCalls ⟨0⟩
          (WriteErrorResponse ⟨0⟩ ⟨lit "GET", none⟩ 503 ⟨lit "db down"⟩ []).2)).length
        = 85 := by
  have hw := content_headers_exact ⟨0⟩ ⟨lit "GET", none⟩ 503 ⟨lit "db down"⟩
    (.encodable (lit "\x7b\"id\":1\x7d")) (lit "\x7b\"id\":1\x7d") [] rfl
  obtain ⟨⟨out1, json1, ho1, -, -, -, hl1, -, -⟩, ⟨out2, json2, ho2, -, -, -, hl2, -, -⟩⟩ := hw
  rw [List.nil_append] at ho1 ho2
  rw [← ho1] at hl1
  rw [← ho2] at hl2
  refine ⟨rfl, ?_, by decide, ?_, by decide⟩
  · rw [hl1]; decide
  · rw [hl2]; decide

/-- C6: the effects of `WriteErrorResponse` are, in order, one warning
record with the fields method, url, code and error when `statusCodeFatal
code` is true and no record when it is false, then calls on the sink only;
so the number of warning records is one for a fatal code and zero otherwise,
the record is the first effect of the call, before every sink call, and no
fatal record is made.
`WriteResponse` adds no warning record to the log. -/
theorem fatal_code_logged (w : ResponseWriter) (r : Request) (code : Int) (err : GoError)
    (data : GoValue) (world : List Effect) :
    (∃ calls : List SinkCall,
      (WriteErrorResponse w r code err world).2
        = world
          ++ (if statusCodeFatal code = true then
                [.warn [("method", .str r.Method), ("url", .url r.URL), ("code", .int code),
                  ("error", .err err)] "API Handler returned an error!"]
              else [])
          ++ calls.map (Effect.sink w))
    ∧ (∃ out, (WriteErrorResponse w r code err world).2 = world ++ out
        ∧ out.countP Effect.isWarn = (if statusCodeFatal code = true then 1 else 0)
        ∧ (out.countP Effect.isWarn = 1 ↔ statusCodeFatal code = true)
        ∧ out.head?.map Effect.isWarn = some (statusCodeFatal code)
        ∧ out.tail.countP Effect.isWarn = 0
        ∧ out.countP Effect.isFatal = 0)
    ∧ (WriteResponse w data world).2.countP Effect.isWarn = world.countP Effect.isWarn := by
  obtain ⟨json, -, hrun⟩ := WriteErrorResponse_run w r code err world
  refine ⟨⟨_, by rw [hrun]⟩, ⟨_, by rw [hrun, List.append_assoc], ?_⟩, ?_⟩
  · by_cases hf : statusCodeFatal code = true <;>
      simp [hf, responseCalls, List.countP_cons, Effect.isWarn, Effect.isFatal]
  · cases hd : marshalValue data with
    | ok J =>
      rw [WriteResponse_run w data J world hd]
      simp [responseCalls, List.countP_cons, Effect.isWarn]
    | error e =>
      rw [WriteResponse_fail w data e world hd]
      simp [List.countP_cons, Effect.isWarn]

/-- C7: when the envelope does not serialize, `WriteJSON` logs one fatal
record and the process exits with status 1: the call does not return, and no
header, status code or byte reaches any sink. -/
theorem marshal_failure_exits (r : Response) (e : String) (world : List Effect)
    (h : Marshal r = .error e) :
    WriteJSON r world
        = (.exited 1, world ++ [.fatal "Could not marshal JSON in the API writer"])
    ∧ (WriteJSON r world).1 ≠ .returned
    ∧ (∀ w, sinkCalls w (WriteJSON r world).2 = sinkCalls w world)
    ∧ (∃ out, (WriteJSON r world).2 = world ++ out ∧ out.countP Effect.isSink = 0) := by
  rw [WriteJSON_error r e world h]
  refine ⟨rfl, by simp, ?_, ⟨_, rfl, by simp [List.countP_cons, Effect.isSink]⟩⟩
  intro w
  simp [sinkCalls]

/-- C7 at a response whose body is a value that `encoding/json` rejects,
through `WriteResponse`. -/
theorem marshal_failure_exits_witness :
    Marshal (successResponse ⟨0⟩ (.unsupported "json: unsupported type: chan int"))
        = .error "json: unsupported type: chan int"
    ∧ WriteResponse ⟨0⟩ (.unsupported "json: unsupported type: chan int") []
        = (.exited 1, [.fatal "Could not marshal JSON in the API writer"]) :=
  ⟨rfl, (marshal_failure_exits
    (successResponse ⟨0⟩ (.unsupported "json: unsupported type: chan int"))
    "json: unsupported type: chan int" [] rfl).1⟩

/-- C8: two calls of `WriteResponse` with the same body, or of
`WriteErrorResponse` with the same request, code and error, on sinks that are
fresh (no call made on them so far), end the same way and leave the same
sequence of calls on their sinks (headers, status code, bytes), whatever the
two sinks are and whatever happened before each call. -/
theorem responses_deterministic (w1 w2 : ResponseWriter) (r : Request) (code : Int)
    (err : GoError) (data : GoValue) (world1 world2 : List Effect)
    (h1 : sinkCalls w1 world1 = []) (h2 : sinkCalls w2 world2 = []) :
    (WriteResponse w1 data world1).1 = (WriteResponse w2 data world2).1
    ∧ sinkCalls w1 (WriteResponse w1 data world1).2
        = sinkCalls w2 (WriteResponse w2 data world2).2
    ∧ (WriteErrorResponse w1 r code err world1).1 = (WriteErrorResponse w2 r code err world2).1
    ∧ sinkCalls w1 (WriteErrorResponse w1 r code err world1).2
        = sinkCalls w2 (WriteErrorResponse w2 r code err world2).2 := by
  have hlog : ∀ w : ResponseWriter,
      sinkCalls w (if statusCodeFatal code = true then
        [Effect.warn [("method", .str r.Method), ("url", .url r.URL), ("code", .int code),
          ("error", .err err)] "API Handler returned an error!"]
        else []) = [] := by
    intro w
    by_cases hf : statusCodeFatal code = true <;> simp [hf, sinkCalls]
  obtain ⟨j1, hj1, hrun1⟩ := WriteErrorResponse_run w1 r code err world1
  obtain ⟨j2, hj2, hrun2⟩ := WriteErrorResponse_run w2 r code err world2
  rw [Marshal_errorResponse] at hj1 hj2
  cases hj1
  cases hj2
  have herr : sinkCalls w1 (WriteErrorResponse w1 r code err world1).2
      = sinkCalls w2 (WriteErrorResponse w2 r code err world2).2 := by
    rw [hrun1, hrun2]
    simp only [sinkCalls_append, sinkCalls_map_sink, h1, h2, hlog]
  cases hd : marshalValue data with
  | ok J =>
    rw [WriteResponse_run w1 data J world1 hd, WriteResponse_run w2 data J world2 hd]
    refine ⟨rfl, ?_, by rw [hrun1, hrun2], herr⟩
    simp only [sinkCalls_append, sinkCalls_map_sink, h1, h2]
  | error e =>
    rw [WriteResponse_fail w1 data e world1 hd, WriteResponse_fail w2 data e world2 hd]
    refine ⟨rfl, ?_, by rw [hrun1, hrun2], herr⟩
    simp only [sinkCalls_append, h1, h2]
    simp [sinkCalls]

/-- C8 at two different sinks, the second call made after the first: the
sink calls of the two calls are the same. -/
theorem responses_deterministic_witness :
    sinkCalls ⟨0⟩ [] = []
    ∧ sinkCalls ⟨1⟩ (WriteErrorResponse ⟨0⟩ ⟨lit "GET", none⟩ 503 ⟨lit "db down"⟩ []).2 = []
    ∧ sinkCalls ⟨0⟩ (WriteErrorResponse ⟨0⟩ ⟨lit "GET", none⟩ 503 ⟨lit "db down"⟩ []).2
        = sinkCalls ⟨1⟩ (WriteErrorResponse ⟨1⟩ ⟨lit "GET", none⟩ 503 ⟨lit "db down"⟩
            (WriteErrorResponse ⟨0⟩ ⟨lit "GET", none⟩ 503 ⟨lit "db down"⟩ []).2).2 :=
  ⟨rfl, by decide,
    (responses_deterministic ⟨0⟩ ⟨1⟩ ⟨lit "GET", none⟩ 503 ⟨lit "db down"⟩ .nil []
      (WriteErrorResponse ⟨0⟩ ⟨lit "GET", none⟩ 503 ⟨lit "db down"⟩ []).2 rfl (by decide)).2.2.2⟩

/-- C9: a successful call performs on its sink exactly four calls, in this
order: `Header().Set("Content-Type", _)`, `Header().Set("Content-Length", _)`,
`WriteHeader(c)`, `Write(json)`, where `json` is the serialized envelope and
`c` is the code of the envelope's status, which `json` carries in its member
`status.code`; `c` is 200 for `WriteResponse` and the caller's code for
`WriteErrorResponse`.  No other sink is touched. -/
theorem response_call_sequence (w : ResponseWriter) (r : Request) (code : Int) (err : GoError)
    (data : GoValue) (J : Bytes) (world : List Effect) (h : marshalValue data = .ok J) :
    (∃ out json st v1 v2 rest,
      WriteResponse w data world = (.returned, world ++ out)
      ∧ Marshal (successResponse w data) = .ok json
      ∧ (successResponse w data).Status = some st ∧ st.Code = 200
      ∧ json = lit "\x7b\"status\":\x7b\"code\":" ++ Itoa st.Code ++ rest
      ∧ sinkCalls w out
          = [.headerSet (lit "Content-Type") v1, .headerSet (lit "Content-Length") v2,
              .writeHeader st.Code, .write json]
      ∧ out.countP Effect.isSink = 4)
    ∧ (∃ out json st v1 v2 rest,
      WriteErrorResponse w r code err world = (.returned, world ++ out)
      ∧ Marshal (errorResponse w code err) = .ok json
      ∧ (errorResponse w code err).Status = some st ∧ st.Code = code
      ∧ json = lit "\x7b\"status\":\x7b\"code\":" ++ Itoa st.Code ++ rest
      ∧ sinkCalls w out
          = [.headerSet (lit "Content-Type") v1, .headerSet (lit "Content-Length") v2,
              .writeHeader st.Code, .write json]
      ∧ out.countP Effect.isSink = 4) := by
  constructor
  · refine ⟨_, _, ⟨StatusOK, StatusText StatusOK, []⟩, lit "application/json; charset=UTF-8",
      Itoa (lit
        "\x7b\"status\":\x7b\"code\":200,\"message\":\"OK\",\"error\":\"\"\x7d,\"body\":"
          ++ J ++ lit "\x7d").length,
      lit ",\"message\":\"OK\",\"error\":\"\"\x7d,\"body\":" ++ J ++ lit "\x7d",
      WriteResponse_run w data J world h, Marshal_successResponse w data J h, rfl, rfl, ?_, ?_, ?_⟩
    · have hpre : lit "\x7b\"status\":\x7b\"code\":200,\"message\":\"OK\",\"error\":\"\"\x7d,\"body\":"
          = lit "\x7b\"status\":\x7b\"code\":" ++ Itoa StatusOK
            ++ lit ",\"message\":\"OK\",\"error\":\"\"\x7d,\"body\":" := by decide
      rw [hpre]
      simp only [List.append_assoc]
    · rw [sinkCalls_map_sink]
      rfl
    · simp [responseCalls, List.countP_cons, Effect.isSink]
  · obtain ⟨json, hjson, hrun⟩ := WriteErrorResponse_run w r code err world
    have hj := hjson
    rw [Marshal_errorResponse] at hj
    cases hj
    refine ⟨_, _, ⟨code, StatusText code, err.Error⟩, lit "application/json; charset=UTF-8",
      Itoa (lit "\x7b\"status\":\x7b\"code\":" ++ Itoa code ++ lit ",\"message\":"
          ++ appendString (StatusText code) ++ lit ",\"error\":" ++ appendString err.Error
          ++ lit "\x7d,\"body\":null\x7d").length,
      lit ",\"message\":" ++ appendString (StatusText code) ++ lit ",\"error\":"
        ++ appendString err.Error ++ lit "\x7d,\"body\":null\x7d",
      by rw [hrun, List.append_assoc], hjson, rfl, rfl, ?_, ?_, ?_⟩
    · simp only [List.append_assoc]
    · rw [sinkCalls_response w _ _ (by by_cases hf : statusCodeFatal code = true <;>
        simp [hf, sinkCalls])]
      rfl
    · by_cases hf : statusCodeFatal code = true <;>
        simp [hf, responseCalls, List.countP_cons, Effect.isSink]

set_option maxRecDepth 100000 in
/-- C9 at the body `{"id":1}`: the four calls on the sink, in order. -/
theorem response_call_sequence_witness :
    marshalValue (.encodable (lit "\x7b\"id\":1\x7d")) = .ok (lit "\x7b\"id\":1\x7d")
    ∧ (∃ out, WriteResponse ⟨0⟩ (.encodable (lit "\x7b\"id\":1\x7d")) [] = (.returned, out)
        ∧ out.countP Effect.isSink = 4)
    ∧ sinkCalls ⟨0⟩ (WriteResponse ⟨0⟩ (.encodable (lit "\x7b\"id\":1\x7d")) []).2
      = [ .headerSet (lit "Content-Type") (lit "application/json; charset=UTF-8"),
          .headerSet (lit "Content-Length") (lit "65"),
          .writeHeader 200,
          .write (lit
            "\x7b\"status\":\x7b\"code\":200,\"message\":\"OK\",\"error\":\"\"\x7d,\"body\":\x7b\"id\":1\x7d\x7d") ] := by
  obtain ⟨⟨out, json, st, v1, v2, rest, hrun, -, -, -, -, -, hcount⟩, -⟩ :=
    response_call_sequence ⟨0⟩ ⟨lit "GET", none⟩ 503 ⟨lit "db down"⟩
      (.encodable (lit "\x7b\"id\":1\x7d")) (lit "\x7b\"id\":1\x7d") [] rfl
  exact ⟨rfl, ⟨out, by rw [hrun, List.nil_append], hcount⟩, by decide⟩

/-- C10: the envelope of an error response has a status and a nil body and
always serializes, whatever the code and the error text; `WriteErrorResponse`
therefore always returns, with no fatal record and no panic, while
`WriteResponse` reaches the exit of `WriteJSON` for a body that does not
serialize. -/
theorem error_path_never_fails (w : ResponseWriter) (r : Request) (code : Int) (err : GoError)
    (world : List Effect) :
    (∃ json, Marshal (errorResponse w code err) = .ok json)
    ∧ (∃ st, (errorResponse w code err).Status = some st)
    ∧ (errorResponse w code err).Body = .nil
    ∧ (WriteErrorResponse w r code err world).1 = .returned
    ∧ (∃ out, (WriteErrorResponse w r code err world).2 = world ++ out
        ∧ out.countP Effect.isFatal = 0)
    ∧ (∃ data, (WriteResponse w data world).1 = .exited 1
        ∧ (WriteResponse w data world).2
            = world ++ [.fatal "Could not marshal JSON in the API writer"]) := by
  obtain ⟨json, hjson, hrun⟩ := WriteErrorResponse_run w r code err world
  refine ⟨⟨json, hjson⟩, ⟨_, rfl⟩, rfl, by rw [hrun], ⟨_, by rw [hrun, List.append_assoc], ?_⟩,
    ⟨.unsupported "json: unsupported type", ?_⟩⟩
  · by_cases hf : statusCodeFatal code = true <;>
      simp [hf, responseCalls, List.countP_cons, Effect.isFatal]
  · rw [WriteResponse_fail w (.unsupported "json: unsupported type") "json: unsupported type"
      world rfl]
    exact ⟨rfl, rfl⟩

end Api
